import Mathlib

/-!
Shallow embedding of the meeting-routes backend (Express router over a
Mongoose document store).  The router file defines seven handlers; the
claims concern `GET /` (list), `POST /` (create), `PATCH /:meetingId/status`
(setStatus), `PATCH /:meetingId` (updateMeetingLink) and
`PATCH /:meetingId/refresh-virtual-pitch` (refreshVirtualPitch).

Nondeterministic inputs of the JavaScript code (the `Date.now()` timestamp,
the `Math.random()` suffixes, the fresh document id assigned by the store
and the `createdAt` timestamp) are passed as explicit parameters.
-/

namespace Arthankur

/-- A user record of the Identity Directory (the `User` model). -/
structure User where
  id : Nat
  name : String
  email : String
  userType : String
deriving Repr, DecidableEq

/-- A meeting document (the `Meeting` model's fields used by the routes).
`virtualPitchRoomId` is `Option String` so that an absent/null field is
distinguishable from a present one; `some ""` models a present but empty
string, which JavaScript truthiness also treats as absent. -/
structure Meeting where
  id : Nat
  requestedBy : Nat
  requestedTo : Nat
  title : String
  description : String
  dateTime : String
  duration : Nat
  status : String
  meetingLink : String
  virtualPitchRoomId : Option String
  createdAt : Nat
deriving Repr, DecidableEq

/-- The persistent state: the `users` and `meetings` collections. -/
structure DB where
  users : List User
  meetings : List Meeting
deriving Repr, DecidableEq

/-- JavaScript truthiness of an optional string field: `!x` is true when the
field is undefined/null (`none`) or the empty string (`some ""`). -/
def strFalsy : Option String → Bool
  | none => true
  | some s => s.isEmpty

/-- Modelled from the spec: the `Meeting` schema file is not part of the
sources given here (only the route handlers are); per the spec, `status` is
an enumeration {pending, accepted, declined} with initial value pending,
supplied by the schema default since the creation handler does not set it. -/
def defaultStatus : String := "pending"

/-- `pitch-${Date.now()}-${Math.random().toString(36).substring(2, 8)}` with
the timestamp and random suffix as parameters. -/
def genVirtualPitchRoomId (now : Nat) (rand : String) : String :=
  "pitch-" ++ toString now ++ "-" ++ rand

/-- `https://meet.google.com/${Math.random().toString(36).substring(7)}`
with the random suffix as a parameter. -/
def genMeetingLink (rand : String) : String :=
  "https://meet.google.com/" ++ rand

/-- `meeting.save()` on a loaded document: the store replaces the document
with the saved one's id by the saved value. -/
def saveMeeting (ms : List Meeting) (m : Meeting) : List Meeting :=
  ms.map (fun x => if x.id == m.id then m else x)

/-- `Meeting.findOne({_id, requestedTo})` used by the status handler. -/
def findByIdAndRequestedTo (ms : List Meeting) (mid caller : Nat) : Option Meeting :=
  ms.find? (fun m => m.id == mid && m.requestedTo == caller)

/-- `Meeting.findOne({_id, $or:[{requestedBy},{requestedTo}]})` used by the
link-update and virtual-pitch handlers. -/
def findByIdAndParticipant (ms : List Meeting) (mid caller : Nat) : Option Meeting :=
  ms.find? (fun m => m.id == mid && (m.requestedBy == caller || m.requestedTo == caller))

/-- `Meeting.findOne({_id, status: 'accepted', $or:[...]})` used by the
refresh-virtual-pitch handler. -/
def findAcceptedByIdAndParticipant (ms : List Meeting) (mid caller : Nat) : Option Meeting :=
  ms.find? (fun m => m.id == mid && m.status == "accepted"
      && (m.requestedBy == caller || m.requestedTo == caller))

/-- Result of `GET /`: the meetings of the caller, `createdAt` descending. -/
def listForCaller (st : DB) (callerId : Nat) : List Meeting × DB :=
  let ms := st.meetings.filter (fun m => m.requestedBy == callerId || m.requestedTo == callerId)
  (ms.mergeSort (fun a b => decide (b.createdAt ≤ a.createdAt)), st)

/-- Request body of `POST /`. -/
structure CreateBody where
  email : String
  title : String
  description : String
  dateTime : String
  duration : Nat
deriving Repr, DecidableEq

/-- Response of `POST /`: 404 "User not found" or 201 with the meeting. -/
inductive CreateResult where
  | userNotFound
  | created (m : Meeting)
deriving Repr, DecidableEq

/-- HTTP status code of a `POST /` response. -/
def CreateResult.httpStatus : CreateResult → Nat
  | .userNotFound => 404
  | .created _ => 201

/-- The `POST /` handler.  `linkRand`, `now`, `roomRand` are the random and
timestamp inputs of the two token generators; `newId` and `createdAt` are the
document id and timestamp the store assigns to the new document. -/
def createMeeting (st : DB) (callerId : Nat) (body : CreateBody)
    (linkRand : String) (now : Nat) (roomRand : String)
    (newId : Nat) (createdAt : Nat) : CreateResult × DB :=
  match st.users.find? (fun u => u.email == body.email) with
  | none => (.userNotFound, st)
  | some requestedToUser =>
    let meeting : Meeting :=
      { id := newId
        requestedBy := callerId
        requestedTo := requestedToUser.id
        title := body.title
        description := body.description
        dateTime := body.dateTime
        duration := body.duration
        status := defaultStatus
        meetingLink := genMeetingLink linkRand
        virtualPitchRoomId := some (genVirtualPitchRoomId now roomRand)
        createdAt := createdAt }
    (.created meeting, { st with meetings := st.meetings ++ [meeting] })

/-- Response of `PATCH /:meetingId/status`: 400 "Invalid status",
404 "Meeting not found or unauthorized", or 200 with the meeting. -/
inductive SetStatusResult where
  | invalidStatus
  | notFoundOrUnauthorized
  | ok (m : Meeting)
deriving Repr, DecidableEq

/-- HTTP status code of a `PATCH /:meetingId/status` response. -/
def SetStatusResult.httpStatus : SetStatusResult → Nat
  | .invalidStatus => 400
  | .notFoundOrUnauthorized => 404
  | .ok _ => 200

/-- The `PATCH /:meetingId/status` handler.  `now` and `rand` are the inputs
of the room-id generator used when accepting a meeting with no room id. -/
def setStatus (st : DB) (callerId meetingId : Nat) (status : String)
    (now : Nat) (rand : String) : SetStatusResult × DB :=
  if !(status == "accepted" || status == "declined") then
    (.invalidStatus, st)
  else
    match findByIdAndRequestedTo st.meetings meetingId callerId with
    | none => (.notFoundOrUnauthorized, st)
    | some meeting =>
      let m1 := { meeting with status := status }
      let m2 :=
        if status == "accepted" && strFalsy m1.virtualPitchRoomId then
          { m1 with virtualPitchRoomId := some (genVirtualPitchRoomId now rand) }
        else m1
      (.ok m2, { st with meetings := saveMeeting st.meetings m2 })

/-- Response of `PATCH /:meetingId`: 404 or 200 with the meeting. -/
inductive UpdateLinkResult where
  | notFoundOrUnauthorized
  | ok (m : Meeting)
deriving Repr, DecidableEq

/-- HTTP status code of a `PATCH /:meetingId` response. -/
def UpdateLinkResult.httpStatus : UpdateLinkResult → Nat
  | .notFoundOrUnauthorized => 404
  | .ok _ => 200

/-- The `PATCH /:meetingId` handler; `newLink` is the `meetingLink` field of
the body, `none` when absent.  `if (meetingLink) ...` overwrites only for a
truthy (present, non-empty) value; the document is saved either way. -/
def updateMeetingLink (st : DB) (callerId meetingId : Nat)
    (newLink : Option String) : UpdateLinkResult × DB :=
  match findByIdAndParticipant st.meetings meetingId callerId with
  | none => (.notFoundOrUnauthorized, st)
  | some meeting =>
    let m1 := if strFalsy newLink then meeting
              else { meeting with meetingLink := newLink.getD "" }
    (.ok m1, { st with meetings := saveMeeting st.meetings m1 })

/-- Body of the virtual-pitch responses. -/
structure VirtualPitchInfo where
  meetingId : Nat
  title : String
  virtualPitchRoomId : Option String
  virtualPitchUrl : String
deriving Repr, DecidableEq

/-- Response of `PATCH /:meetingId/refresh-virtual-pitch`. -/
inductive RefreshResult where
  | notFoundOrUnauthorized
  | ok (info : VirtualPitchInfo)
deriving Repr, DecidableEq

/-- HTTP status code of a refresh-virtual-pitch response. -/
def RefreshResult.httpStatus : RefreshResult → Nat
  | .notFoundOrUnauthorized => 404
  | .ok _ => 200

/-- `/virtual-pitch/${meeting.virtualPitchRoomId}` (string interpolation of
an absent field prints "undefined" in JavaScript). -/
def virtualPitchUrlOf : Option String → String
  | some s => "/virtual-pitch/" ++ s
  | none => "/virtual-pitch/undefined"

/-- The `PATCH /:meetingId/refresh-virtual-pitch` handler.  `now` and `rand`
are the inputs of the room-id generator. -/
def refreshVirtualPitch (st : DB) (callerId meetingId : Nat)
    (now : Nat) (rand : String) : RefreshResult × DB :=
  match findAcceptedByIdAndParticipant st.meetings meetingId callerId with
  | none => (.notFoundOrUnauthorized, st)
  | some meeting =>
    let m1 := { meeting with virtualPitchRoomId := some (genVirtualPitchRoomId now rand) }
    (.ok { meetingId := m1.id
           title := m1.title
           virtualPitchRoomId := m1.virtualPitchRoomId
           virtualPitchUrl := virtualPitchUrlOf m1.virtualPitchRoomId },
     { st with meetings := saveMeeting st.meetings m1 })

/-! ### Operation traces and reachable states -/

/-- One external call, with the nondeterministic inputs fixed. -/
inductive Op where
  | createOp (callerId : Nat) (body : CreateBody) (linkRand : String) (now : Nat)
      (roomRand : String) (newId : Nat) (createdAt : Nat)
  | setStatusOp (callerId meetingId : Nat) (status : String) (now : Nat) (rand : String)
  | updateLinkOp (callerId meetingId : Nat) (newLink : Option String)
  | refreshOp (callerId meetingId : Nat) (now : Nat) (rand : String)
  | listOp (callerId : Nat)
deriving Repr, DecidableEq

/-- The state after an external call. -/
def applyOp (st : DB) : Op → DB
  | .createOp c b lr n rr ni ca => (createMeeting st c b lr n rr ni ca).2
  | .setStatusOp c mid s n r => (setStatus st c mid s n r).2
  | .updateLinkOp c mid nl => (updateMeetingLink st c mid nl).2
  | .refreshOp c mid n r => (refreshVirtualPitch st c mid n r).2
  | .listOp c => (listForCaller st c).2

/-- The meeting document a call writes: the document with the given id, or
the freshly created one; the read-only list endpoint writes nothing. -/
def Op.targetId : Op → Nat
  | .createOp _ _ _ _ _ newId _ => newId
  | .setStatusOp _ mid _ _ _ => mid
  | .updateLinkOp _ mid _ => mid
  | .refreshOp _ mid _ _ => mid
  | .listOp _ => 0

/-- States reachable from an empty meeting collection over a fixed user
directory (no exposed operation ever touches the users). -/
inductive Reachable (users : List User) : DB → Prop
  | init : Reachable users ⟨users, []⟩
  | step {st : DB} (op : Op) : Reachable users st → Reachable users (applyOp st op)

/-! ### Helper lemmas -/

theorem genVirtualPitchRoomId_ne_empty (now : Nat) (rand : String) :
    genVirtualPitchRoomId now rand ≠ "" := by
  simp [genVirtualPitchRoomId]
  intro h
  have h2 := congrArg String.length h
  simp [String.length_append] at h2
  exact absurd h2.1.1.1 (by decide)

theorem mem_saveMeeting (ms : List Meeting) (m y : Meeting) (hy : y ∈ saveMeeting ms m) :
    y ∈ ms ∨ y = m := by
  rcases List.mem_map.1 hy with ⟨x, hx, hxy⟩
  by_cases hid : x.id == m.id
  · right; simpa [hid] using hxy.symm
  · left
    have hyx : y = x := by simpa [hid] using hxy.symm
    exact hyx ▸ hx

theorem mem_saveMeeting_of_ne (ms : List Meeting) (m x : Meeting)
    (hx : x ∈ ms) (hne : x.id ≠ m.id) : x ∈ saveMeeting ms m := by
  have : (if x.id == m.id then m else x) = x := by simp [hne]
  exact this ▸ List.mem_map.2 ⟨x, hx, rfl⟩

theorem saveMeeting_eq_self (ms : List Meeting) (m : Meeting)
    (hnd : (ms.map Meeting.id).Nodup) (hm : m ∈ ms) : saveMeeting ms m = ms := by
  have : saveMeeting ms m = ms.map id := by
    apply List.map_congr_left
    intro x hx
    by_cases hid : x.id == m.id
    · have : x = m := List.inj_on_of_nodup_map hnd hx hm (by simpa using hid)
      simp [hid, this]
    · simp [hid]
  simpa using this

/-! ### C8: invalid `newStatus` is rejected before any load or write -/

/-- C8: for every `newStatus` outside {accepted, declined}, `setStatus`
answers 400 Invalid status and returns the state unchanged, for every
caller, meeting id and store; the response is the same constant for every
store, so the validation precedes any load or write. -/
theorem setStatus_invalid_status_rejected (st : DB) (callerId meetingId : Nat)
    (status : String) (now : Nat) (rand : String)
    (h : status ≠ "accepted" ∧ status ≠ "declined") :
    setStatus st callerId meetingId status now rand = (.invalidStatus, st) ∧
    SetStatusResult.invalidStatus.httpStatus = 400 := by
  refine ⟨?_, rfl⟩
  unfold setStatus
  simp [h.1, h.2]

/-- Witness for C8: rejecting the (still pending-valued) string "pending". -/
theorem setStatus_invalid_status_rejected_witness :
    setStatus ⟨[], []⟩ 1 1 "pending" 0 "r" = (.invalidStatus, ⟨[], []⟩) ∧
    SetStatusResult.invalidStatus.httpStatus = 400 :=
  setStatus_invalid_status_rejected ⟨[], []⟩ 1 1 "pending" 0 "r" (by decide)

/-! ### C1: a caller who is not `requestedTo` cannot observe or change -/

/-- C1: for every caller and meeting id such that no stored meeting has that
id with the caller as its `requestedTo` participant — covering both a
missing meeting and a meeting whose `requestedTo` is someone else —
`setStatus` (with a valid status, i.e. past the C8 validation) leaves the
whole state unchanged and answers the one fixed 404 response, so the two
cases are externally indistinguishable. -/
theorem setStatus_not_requestedTo_rejected (st : DB) (callerId meetingId : Nat)
    (status : String) (now : Nat) (rand : String)
    (hv : status = "accepted" ∨ status = "declined")
    (hno : ∀ m ∈ st.meetings, m.id = meetingId → m.requestedTo ≠ callerId) :
    setStatus st callerId meetingId status now rand = (.notFoundOrUnauthorized, st) ∧
    SetStatusResult.notFoundOrUnauthorized.httpStatus = 404 := by
  refine ⟨?_, rfl⟩
  have hfind : findByIdAndRequestedTo st.meetings meetingId callerId = none := by
    rw [findByIdAndRequestedTo, List.find?_eq_none]
    intro m hm
    simp only [Bool.and_eq_true, beq_iff_eq, not_and]
    exact hno m hm
  unfold setStatus
  rcases hv with h | h <;> subst h <;> simp [hfind]

/-- Witness for C1: the requester (not the target) tries to accept an
existing meeting, and the same call against a store without the meeting
gives the identical response. -/
theorem setStatus_not_requestedTo_rejected_witness :
    setStatus ⟨[], [⟨1, 10, 20, "t", "d", "T", 30, "pending", "L", some "p", 5⟩]⟩
        10 1 "accepted" 0 "r"
      = (.notFoundOrUnauthorized,
         ⟨[], [⟨1, 10, 20, "t", "d", "T", 30, "pending", "L", some "p", 5⟩]⟩) ∧
    SetStatusResult.notFoundOrUnauthorized.httpStatus = 404 :=
  setStatus_not_requestedTo_rejected
    ⟨[], [⟨1, 10, 20, "t", "d", "T", 30, "pending", "L", some "p", 5⟩]⟩
    10 1 "accepted" 0 "r" (Or.inl rfl) (by decide)

/-! ### C6: creation against an unknown email persists nothing -/

/-- C6: when no user in the directory has the requested email, the creation
handler answers 404 User not found and the state — in particular the
meeting store — is exactly what it was before the call. -/
theorem createMeeting_unknown_email_rejected (st : DB) (callerId : Nat) (body : CreateBody)
    (linkRand : String) (now : Nat) (roomRand : String) (newId createdAt : Nat)
    (h : ∀ u ∈ st.users, u.email ≠ body.email) :
    createMeeting st callerId body linkRand now roomRand newId createdAt
      = (.userNotFound, st) ∧
    CreateResult.userNotFound.httpStatus = 404 := by
  refine ⟨?_, rfl⟩
  have hfind : st.users.find? (fun u => u.email == body.email) = none := by
    rw [List.find?_eq_none]
    intro u hu
    simpa using h u hu
  unfold createMeeting
  simp [hfind]

/-- Witness for C6: a directory holding one user with a different email. -/
theorem createMeeting_unknown_email_rejected_witness :
    createMeeting ⟨[⟨10, "A", "a@x.com", "founder"⟩], []⟩ 10
        ⟨"b@x.com", "t", "d", "T", 30⟩ "r" 0 "rr" 1 0
      = (.userNotFound, ⟨[⟨10, "A", "a@x.com", "founder"⟩], []⟩) ∧
    CreateResult.userNotFound.httpStatus = 404 :=
  createMeeting_unknown_email_rejected ⟨[⟨10, "A", "a@x.com", "founder"⟩], []⟩ 10
    ⟨"b@x.com", "t", "d", "T", 30⟩ "r" 0 "rr" 1 0 (by decide)

/-! ### C9: the list endpoint is exact, sorted and read-only -/

/-- C9: for every caller, `GET /` leaves the state unchanged and returns a
permutation of exactly the stored meetings in which the caller appears as
`requestedBy` or `requestedTo` — no others and none missing — arranged with
`createdAt` descending; membership in the output is equivalent to being a
stored meeting of the caller. -/
theorem listForCaller_exact_sorted_readonly (st : DB) (callerId : Nat) :
    (listForCaller st callerId).2 = st ∧
    ((listForCaller st callerId).1).Perm
      (st.meetings.filter
        (fun m => m.requestedBy == callerId || m.requestedTo == callerId)) ∧
    List.Pairwise (fun a b => b.createdAt ≤ a.createdAt) (listForCaller st callerId).1 ∧
    ∀ m, m ∈ (listForCaller st callerId).1 ↔
      m ∈ st.meetings ∧ (m.requestedBy = callerId ∨ m.requestedTo = callerId) := by
  refine ⟨rfl, List.mergeSort_perm _ _, ?_, ?_⟩
  · have hs := @List.sorted_mergeSort Meeting
      (fun a b => decide (b.createdAt ≤ a.createdAt))
      (fun a b c hab hbc => by simp at *; omega)
      (fun a b => by simp [Nat.le_total, or_comm])
      (st.meetings.filter
        (fun m => m.requestedBy == callerId || m.requestedTo == callerId))
    simpa [listForCaller] using hs
  · intro m
    simp [listForCaller, List.mem_mergeSort, List.mem_filter]

/-! ### C7: link update overwrites exactly on a truthy link -/

/-- C7: for a caller who is a participant of the addressed meeting (with
document ids unique, as the store guarantees), `PATCH /:meetingId` with an
absent or empty `meetingLink` returns the stored meeting and leaves the
whole state unchanged, and with a non-empty link returns and stores the
meeting with only `meetingLink` replaced by exactly that value — every
other field and every other meeting untouched. -/
theorem updateMeetingLink_link_semantics (st : DB) (callerId meetingId : Nat)
    (newLink : Option String) (m : Meeting)
    (hnd : (st.meetings.map Meeting.id).Nodup)
    (hm : findByIdAndParticipant st.meetings meetingId callerId = some m) :
    (strFalsy newLink = true →
      updateMeetingLink st callerId meetingId newLink = (.ok m, st)) ∧
    (∀ s, newLink = some s → s ≠ "" →
      updateMeetingLink st callerId meetingId newLink =
        (.ok { m with meetingLink := s },
         { st with meetings := saveMeeting st.meetings { m with meetingLink := s } }) ∧
      ∀ x ∈ st.meetings, x.id ≠ m.id →
        x ∈ (updateMeetingLink st callerId meetingId newLink).2.meetings) := by
  have hmem : m ∈ st.meetings := List.mem_of_find?_eq_some hm
  constructor
  · intro hf
    unfold updateMeetingLink
    rw [hm]
    simp [hf, saveMeeting_eq_self st.meetings m hnd hmem]
  · intro s hs hne
    subst hs
    have hf : strFalsy (some s) = false := by
      rw [strFalsy, Bool.eq_false_iff]
      intro hcontra
      exact hne ((String.isEmpty_iff s).1 hcontra)
    have hres : updateMeetingLink st callerId meetingId (some s) =
        (.ok { m with meetingLink := s },
         { st with meetings := saveMeeting st.meetings { m with meetingLink := s } }) := by
      unfold updateMeetingLink
      rw [hm]
      simp [hf]
    refine ⟨hres, ?_⟩
    intro x hx hxid
    rw [hres]
    exact mem_saveMeeting_of_ne _ _ _ hx (by simpa using hxid)

/-- A concrete meeting used by witnesses: requested by user 10 to user 20. -/
def meetingW : Meeting :=
  { id := 1, requestedBy := 10, requestedTo := 20, title := "t", description := "d"
    dateTime := "T", duration := 30, status := "pending", meetingLink := "L"
    virtualPitchRoomId := some "p", createdAt := 5 }

/-- Witness for C7: a no-op on an absent link and an overwrite by "newL",
both invoked by the requester (user 10). -/
theorem updateMeetingLink_link_semantics_witness :
    updateMeetingLink ⟨[], [meetingW]⟩ 10 1 none = (.ok meetingW, ⟨[], [meetingW]⟩) ∧
    updateMeetingLink ⟨[], [meetingW]⟩ 10 1 (some "newL")
      = (.ok { meetingW with meetingLink := "newL" },
         ⟨[], saveMeeting [meetingW] { meetingW with meetingLink := "newL" }⟩) := by
  constructor
  · exact (updateMeetingLink_link_semantics ⟨[], [meetingW]⟩ 10 1 none meetingW
      (by decide) rfl).1 rfl
  · exact ((updateMeetingLink_link_semantics ⟨[], [meetingW]⟩ 10 1 (some "newL") meetingW
      (by decide) rfl).2 "newL" rfl (by decide)).1

/-! ### Characterizations of the handlers on found / not-found documents -/

/-- The document `POST /` inserts when the target email resolves to a user
with id `tid`. -/
def createdMeeting (c : Nat) (b : CreateBody) (lr : String) (n : Nat) (rr : String)
    (ni ca tid : Nat) : Meeting :=
  { id := ni, requestedBy := c, requestedTo := tid, title := b.title
    description := b.description, dateTime := b.dateTime, duration := b.duration
    status := defaultStatus, meetingLink := genMeetingLink lr
    virtualPitchRoomId := some (genVirtualPitchRoomId n rr), createdAt := ca }

theorem createMeeting_found (st : DB) (c : Nat) (b : CreateBody) (lr : String) (n : Nat)
    (rr : String) (ni ca : Nat) (u : User)
    (hfind : st.users.find? (fun v => v.email == b.email) = some u) :
    createMeeting st c b lr n rr ni ca =
      (.created (createdMeeting c b lr n rr ni ca u.id),
       { st with meetings := st.meetings ++ [createdMeeting c b lr n rr ni ca u.id] }) := by
  unfold createMeeting createdMeeting
  rw [hfind]

theorem createMeeting_notFound (st : DB) (c : Nat) (b : CreateBody) (lr : String) (n : Nat)
    (rr : String) (ni ca : Nat)
    (hfind : st.users.find? (fun v => v.email == b.email) = none) :
    createMeeting st c b lr n rr ni ca = (.userNotFound, st) := by
  unfold createMeeting
  rw [hfind]

/-- The saved document of a status update: status overwritten; a room id is
generated exactly when accepting a meeting whose room id is falsy. -/
def statusUpdated (meeting : Meeting) (status : String) (now : Nat) (rand : String) : Meeting :=
  if status == "accepted" && strFalsy meeting.virtualPitchRoomId then
    { meeting with status := status
                   virtualPitchRoomId := some (genVirtualPitchRoomId now rand) }
  else { meeting with status := status }

theorem setStatus_found (st : DB) (c mid : Nat) (status : String) (n : Nat) (r : String)
    (meeting : Meeting)
    (hv : (status == "accepted" || status == "declined") = true)
    (hfind : findByIdAndRequestedTo st.meetings mid c = some meeting) :
    setStatus st c mid status n r =
      (.ok (statusUpdated meeting status n r),
       { st with meetings := saveMeeting st.meetings (statusUpdated meeting status n r) }) := by
  unfold setStatus statusUpdated
  rw [hfind]
  simp only [hv, Bool.not_true, Bool.false_eq_true, if_false]

theorem setStatus_notFound (st : DB) (c mid : Nat) (status : String) (n : Nat) (r : String)
    (hfind : findByIdAndRequestedTo st.meetings mid c = none) :
    (setStatus st c mid status n r).2 = st := by
  unfold setStatus
  split
  · rfl
  · rw [hfind]

theorem statusUpdated_status (m : Meeting) (s : String) (n : Nat) (r : String) :
    (statusUpdated m s n r).status = s := by
  unfold statusUpdated
  split <;> rfl

theorem statusUpdated_id (m : Meeting) (s : String) (n : Nat) (r : String) :
    (statusUpdated m s n r).id = m.id := by
  unfold statusUpdated
  split <;> rfl

theorem statusUpdated_vpr (m : Meeting) (s : String) (n : Nat) (r : String) :
    (statusUpdated m s n r).virtualPitchRoomId =
      if s == "accepted" && strFalsy m.virtualPitchRoomId
      then some (genVirtualPitchRoomId n r) else m.virtualPitchRoomId := by
  unfold statusUpdated
  split <;> simp_all

/-- The saved document of a link update. -/
def linkUpdated (meeting : Meeting) (newLink : Option String) : Meeting :=
  if strFalsy newLink then meeting else { meeting with meetingLink := newLink.getD "" }

theorem updateMeetingLink_found (st : DB) (c mid : Nat) (nl : Option String)
    (meeting : Meeting)
    (hfind : findByIdAndParticipant st.meetings mid c = some meeting) :
    updateMeetingLink st c mid nl =
      (.ok (linkUpdated meeting nl),
       { st with meetings := saveMeeting st.meetings (linkUpdated meeting nl) }) := by
  unfold updateMeetingLink linkUpdated
  rw [hfind]

theorem updateMeetingLink_notFound (st : DB) (c mid : Nat) (nl : Option String)
    (hfind : findByIdAndParticipant st.meetings mid c = none) :
    updateMeetingLink st c mid nl = (.notFoundOrUnauthorized, st) := by
  unfold updateMeetingLink
  rw [hfind]

theorem linkUpdated_status (m : Meeting) (nl : Option String) :
    (linkUpdated m nl).status = m.status := by
  unfold linkUpdated
  split <;> rfl

theorem linkUpdated_id (m : Meeting) (nl : Option String) :
    (linkUpdated m nl).id = m.id := by
  unfold linkUpdated
  split <;> rfl

theorem linkUpdated_vpr (m : Meeting) (nl : Option String) :
    (linkUpdated m nl).virtualPitchRoomId = m.virtualPitchRoomId := by
  unfold linkUpdated
  split <;> rfl

/-- The saved document of a room-id refresh. -/
def refreshedMeeting (meeting : Meeting) (n : Nat) (r : String) : Meeting :=
  { meeting with virtualPitchRoomId := some (genVirtualPitchRoomId n r) }

theorem refreshVirtualPitch_found (st : DB) (c mid n : Nat) (r : String)
    (meeting : Meeting)
    (hfind : findAcceptedByIdAndParticipant st.meetings mid c = some meeting) :
    refreshVirtualPitch st c mid n r =
      (.ok { meetingId := meeting.id, title := meeting.title
             virtualPitchRoomId := some (genVirtualPitchRoomId n r)
             virtualPitchUrl := virtualPitchUrlOf (some (genVirtualPitchRoomId n r)) },
       { st with meetings := saveMeeting st.meetings (refreshedMeeting meeting n r) }) := by
  unfold refreshVirtualPitch refreshedMeeting
  rw [hfind]

theorem refreshVirtualPitch_notFound (st : DB) (c mid n : Nat) (r : String)
    (hfind : findAcceptedByIdAndParticipant st.meetings mid c = none) :
    refreshVirtualPitch st c mid n r = (.notFoundOrUnauthorized, st) := by
  unfold refreshVirtualPitch
  rw [hfind]

theorem setStatus_invalid_state (st : DB) (c mid : Nat) (s : String) (n : Nat) (r : String)
    (hv : (s == "accepted" || s == "declined") = false) :
    setStatus st c mid s n r = (.invalidStatus, st) := by
  unfold setStatus
  simp [hv]

theorem strFalsy_false (o : Option String) (h : strFalsy o = false) :
    ∃ s, o = some s ∧ s ≠ "" := by
  cases o with
  | none => simp [strFalsy] at h
  | some s =>
    refine ⟨s, rfl, ?_⟩
    intro he
    subst he
    simp only [strFalsy] at h
    exact absurd h (by decide)

/-! ### The room-id invariant over reachable states -/

/-- Every call keeps the property that every stored meeting carries a
non-empty `virtualPitchRoomId`. -/
theorem applyOp_preserves_roomId (st : DB) (op : Op)
    (h : ∀ x ∈ st.meetings, ∃ s, x.virtualPitchRoomId = some s ∧ s ≠ "") :
    ∀ x ∈ (applyOp st op).meetings, ∃ s, x.virtualPitchRoomId = some s ∧ s ≠ "" := by
  intro x hx
  cases op with
  | createOp c b lr n rr ni ca =>
    simp only [applyOp] at hx
    cases hfind : st.users.find? (fun v => v.email == b.email) with
    | none =>
      rw [createMeeting_notFound st c b lr n rr ni ca hfind] at hx
      exact h x hx
    | some u =>
      rw [createMeeting_found st c b lr n rr ni ca u hfind] at hx
      simp only [List.mem_append, List.mem_singleton] at hx
      rcases hx with hx | hx
      · exact h x hx
      · subst hx
        exact ⟨genVirtualPitchRoomId n rr, rfl, genVirtualPitchRoomId_ne_empty n rr⟩
  | setStatusOp c mid s n r =>
    simp only [applyOp] at hx
    by_cases hv : (s == "accepted" || s == "declined") = true
    · cases hfind : findByIdAndRequestedTo st.meetings mid c with
      | none =>
        rw [setStatus_notFound st c mid s n r hfind] at hx
        exact h x hx
      | some meeting =>
        rw [setStatus_found st c mid s n r meeting hv hfind] at hx
        rcases mem_saveMeeting _ _ _ hx with hmem | heq
        · exact h x hmem
        · subst heq
          rw [statusUpdated_vpr]
          by_cases hc : (s == "accepted" && strFalsy meeting.virtualPitchRoomId) = true
          · rw [if_pos hc]
            exact ⟨genVirtualPitchRoomId n r, rfl, genVirtualPitchRoomId_ne_empty n r⟩
          · rw [if_neg hc]
            exact h meeting (List.mem_of_find?_eq_some hfind)
    · rw [setStatus_invalid_state st c mid s n r (by simpa using hv)] at hx
      exact h x hx
  | updateLinkOp c mid nl =>
    simp only [applyOp] at hx
    cases hfind : findByIdAndParticipant st.meetings mid c with
    | none =>
      rw [updateMeetingLink_notFound st c mid nl hfind] at hx
      exact h x hx
    | some meeting =>
      rw [updateMeetingLink_found st c mid nl meeting hfind] at hx
      rcases mem_saveMeeting _ _ _ hx with hmem | heq
      · exact h x hmem
      · subst heq
        rw [linkUpdated_vpr]
        exact h meeting (List.mem_of_find?_eq_some hfind)
  | refreshOp c mid n r =>
    simp only [applyOp] at hx
    cases hfind : findAcceptedByIdAndParticipant st.meetings mid c with
    | none =>
      rw [refreshVirtualPitch_notFound st c mid n r hfind] at hx
      exact h x hx
    | some meeting =>
      rw [refreshVirtualPitch_found st c mid n r meeting hfind] at hx
      rcases mem_saveMeeting _ _ _ hx with hmem | heq
      · exact h x hmem
      · subst heq
        exact ⟨genVirtualPitchRoomId n r, rfl, genVirtualPitchRoomId_ne_empty n r⟩
  | listOp c =>
    simp only [applyOp, listForCaller] at hx
    exact h x hx

/-- In every state reachable from an empty meeting collection, every stored
meeting has a non-empty room id (creation always assigns one). -/
theorem reachable_roomId_nonempty (users : List User) (st : DB) (h : Reachable users st) :
    ∀ x ∈ st.meetings, ∃ s, x.virtualPitchRoomId = some s ∧ s ≠ "" := by
  induction h with
  | init =>
    intro x hx
    simp at hx
  | step op _ ih => exact applyOp_preserves_roomId _ op ih

/-! ### C4: accepting a meeting guarantees a room id -/

/-- C4: a successful `setStatus(..., accepted)` stores and returns a meeting
whose `virtualPitchRoomId` is non-empty: when the field was absent (falsy) a
fresh token is generated, and when it was present it is kept bit-for-bit;
consequently — indeed for every status — every meeting in every reachable
state has a non-empty room id. -/
theorem setStatus_accepted_roomId (st : DB) (callerId meetingId now : Nat) (rand : String)
    (meeting : Meeting)
    (hm : findByIdAndRequestedTo st.meetings meetingId callerId = some meeting) :
    setStatus st callerId meetingId "accepted" now rand =
      (.ok (statusUpdated meeting "accepted" now rand),
       { st with
          meetings := saveMeeting st.meetings (statusUpdated meeting "accepted" now rand) }) ∧
    (∃ s, (statusUpdated meeting "accepted" now rand).virtualPitchRoomId = some s ∧ s ≠ "") ∧
    (strFalsy meeting.virtualPitchRoomId = false →
      (statusUpdated meeting "accepted" now rand).virtualPitchRoomId
        = meeting.virtualPitchRoomId) ∧
    (strFalsy meeting.virtualPitchRoomId = true →
      (statusUpdated meeting "accepted" now rand).virtualPitchRoomId
        = some (genVirtualPitchRoomId now rand)) ∧
    (∀ users st2, Reachable users st2 → ∀ x ∈ st2.meetings, x.status = "accepted" →
      ∃ s, x.virtualPitchRoomId = some s ∧ s ≠ "") := by
  refine ⟨setStatus_found st callerId meetingId "accepted" now rand meeting rfl hm,
    ?_, ?_, ?_, fun users st2 h2 x hx _ => reachable_roomId_nonempty users st2 h2 x hx⟩
  · rw [statusUpdated_vpr]
    by_cases hf : strFalsy meeting.virtualPitchRoomId = true
    · simp only [hf, Bool.and_true, if_pos]
      exact ⟨genVirtualPitchRoomId now rand, by simp, genVirtualPitchRoomId_ne_empty now rand⟩
    · have hf2 : strFalsy meeting.virtualPitchRoomId = false := by simpa using hf
      rcases strFalsy_false _ hf2 with ⟨s, hs, hne⟩
      simp only [hf2, Bool.and_false, Bool.false_eq_true, if_false]
      exact ⟨s, hs, hne⟩
  · intro hf2
    rw [statusUpdated_vpr, hf2]
    simp
  · intro hf
    rw [statusUpdated_vpr, hf]
    simp

/-- Witness for C4: accepting the concrete pending meeting keeps its room id
"p"; accepting the same meeting with the field removed generates the fresh
token. -/
theorem setStatus_accepted_roomId_witness :
    (∃ s, (statusUpdated meetingW "accepted" 7 "zz").virtualPitchRoomId = some s ∧ s ≠ "") ∧
    (statusUpdated meetingW "accepted" 7 "zz").virtualPitchRoomId
      = meetingW.virtualPitchRoomId ∧
    (statusUpdated { meetingW with virtualPitchRoomId := none } "accepted" 7 "zz").virtualPitchRoomId
      = some (genVirtualPitchRoomId 7 "zz") :=
  ⟨(setStatus_accepted_roomId ⟨[], [meetingW]⟩ 20 1 7 "zz" meetingW rfl).2.1,
   (setStatus_accepted_roomId ⟨[], [meetingW]⟩ 20 1 7 "zz" meetingW rfl).2.2.1 rfl,
   (setStatus_accepted_roomId ⟨[], [{ meetingW with virtualPitchRoomId := none }]⟩ 20 1 7 "zz"
      { meetingW with virtualPitchRoomId := none } rfl).2.2.2.1 rfl⟩

/-! ### C2: creation sets pending, but has no self-meeting guard -/

/-- A caller whose own email can be supplied as the target. -/
def aliceW : User := { id := 10, name := "Alice", email := "alice@x.com", userType := "founder" }

/-- A second user, the normal creation target. -/
def bobW : User := { id := 20, name := "Bob", email := "bob@x.com", userType := "investor" }

/-- Creation body naming the caller's own email. -/
def selfBodyW : CreateBody :=
  { email := "alice@x.com", title := "t", description := "d", dateTime := "T", duration := 30 }

/-- Creation body naming the other user's email. -/
def bobBodyW : CreateBody :=
  { email := "bob@x.com", title := "t", description := "d", dateTime := "T", duration := 30 }

/-- The two-user directory with no meetings. -/
def dbAB : DB := { users := [aliceW, bobW], meetings := [] }

/-- C2 counterexample: with directory [alice] and alice (id 10) supplying
her own email, creation succeeds and persists a meeting with
`requestedBy = requestedTo = 10` — the handler never compares the resolved
target against the caller, so the claimed `requestedBy ≠ requestedTo` fails. -/
theorem createMeeting_self_counterexample :
    (createMeeting ⟨[aliceW], []⟩ 10 selfBodyW "r" 0 "rr" 1 0).1
      = .created (createdMeeting 10 selfBodyW "r" 0 "rr" 1 0 10) ∧
    (createdMeeting 10 selfBodyW "r" 0 "rr" 1 0 10).requestedBy
      = (createdMeeting 10 selfBodyW "r" 0 "rr" 1 0 10).requestedTo ∧
    (createdMeeting 10 selfBodyW "r" 0 "rr" 1 0 10)
      ∈ (createMeeting ⟨[aliceW], []⟩ 10 selfBodyW "r" 0 "rr" 1 0).2.meetings ∧
    (createdMeeting 10 selfBodyW "r" 0 "rr" 1 0 10).status = "pending" := by
  have h := createMeeting_found ⟨[aliceW], []⟩ 10 selfBodyW "r" 0 "rr" 1 0 aliceW rfl
  refine ⟨by rw [h]; rfl, rfl, ?_, rfl⟩
  rw [h]
  simp [aliceW]

/-- C2 (amended): every successful creation persists and returns a meeting
with status pending (the schema default, modelled from the spec),
`requestedBy` the caller and `requestedTo` the resolved target's id, hence
`requestedBy ≠ requestedTo` whenever the target email resolves to a user
other than the caller; a caller supplying their own email still succeeds
and gets `requestedBy = requestedTo`. -/
theorem createMeeting_created_spec (st : DB) (callerId : Nat) (b : CreateBody)
    (lr : String) (n : Nat) (rr : String) (ni ca : Nat) (m : Meeting) (st' : DB)
    (h : createMeeting st callerId b lr n rr ni ca = (.created m, st')) :
    m.status = "pending" ∧ m.requestedBy = callerId ∧ m ∈ st'.meetings ∧
    (∀ u, st.users.find? (fun v => v.email == b.email) = some u → m.requestedTo = u.id) ∧
    (∀ u, st.users.find? (fun v => v.email == b.email) = some u → u.id ≠ callerId →
      m.requestedBy ≠ m.requestedTo) := by
  cases hfind : st.users.find? (fun v => v.email == b.email) with
  | none =>
    rw [createMeeting_notFound st callerId b lr n rr ni ca hfind] at h
    exact absurd (congrArg Prod.fst h) (by simp)
  | some u =>
    rw [createMeeting_found st callerId b lr n rr ni ca u hfind] at h
    have hm : createdMeeting callerId b lr n rr ni ca u.id = m := by
      have h1 := congrArg Prod.fst h
      simpa using h1
    have hst : ({ st with
        meetings := st.meetings ++ [createdMeeting callerId b lr n rr ni ca u.id] } : DB)
        = st' := congrArg Prod.snd h
    subst hm
    refine ⟨rfl, rfl, ?_, ?_, ?_⟩
    · rw [← hst]
      simp
    · intro u2 hu2
      injection hu2 with h2
      rw [h2]
      rfl
    · intro u2 hu2 hne
      injection hu2 with h2
      subst h2
      intro hc
      exact hne hc.symm

/-- Witness for C2's amended theorem: alice creating a meeting with bob's
email yields a pending meeting between the two distinct accounts. -/
theorem createMeeting_created_spec_witness :
    (createdMeeting 10 bobBodyW "r" 0 "rr" 1 0 20).status = "pending" ∧
    (createdMeeting 10 bobBodyW "r" 0 "rr" 1 0 20).requestedBy
      ≠ (createdMeeting 10 bobBodyW "r" 0 "rr" 1 0 20).requestedTo := by
  have h := createMeeting_created_spec dbAB 10 bobBodyW "r" 0 "rr" 1 0
      (createdMeeting 10 bobBodyW "r" 0 "rr" 1 0 20)
      { dbAB with meetings := dbAB.meetings ++ [createdMeeting 10 bobBodyW "r" 0 "rr" 1 0 20] }
      (createMeeting_found dbAB 10 bobBodyW "r" 0 "rr" 1 0 bobW rfl)
  exact ⟨h.1, h.2.2.2.2 bobW rfl (by decide)⟩

/-! ### C3: status transitions are not guarded against terminal states -/

/-- The concrete meeting, already accepted. -/
def acceptedW : Meeting := { meetingW with status := "accepted" }

/-- C3 counterexample: on a store holding an accepted meeting, its
`requestedTo` participant (user 20) calls `setStatus(..., declined)`; the
call succeeds and the stored status flips from accepted to declined, so
accepted is not terminal. -/
theorem setStatus_terminal_flip_counterexample :
    acceptedW.status = "accepted" ∧
    (setStatus ⟨[], [acceptedW]⟩ 20 1 "declined" 0 "zz").1
      = .ok (statusUpdated acceptedW "declined" 0 "zz") ∧
    (statusUpdated acceptedW "declined" 0 "zz").status = "declined" ∧
    (setStatus ⟨[], [acceptedW]⟩ 20 1 "declined" 0 "zz").2.meetings
      = [statusUpdated acceptedW "declined" 0 "zz"] := by
  have h := setStatus_found ⟨[], [acceptedW]⟩ 20 1 "declined" 0 "zz" acceptedW rfl rfl
  refine ⟨rfl, by rw [h], statusUpdated_status acceptedW "declined" 0 "zz", ?_⟩
  rw [h]
  simp only [saveMeeting, List.map_cons, List.map_nil]
  rw [if_pos (by rw [statusUpdated_id]; rfl)]

/-- C3 (amended): with unique document ids (as the store guarantees), the
only exposed operation that ever changes the stored `status` of a meeting is
`setStatus` invoked by that meeting's `requestedTo` participant, and the new
value is accepted or declined; however no transition is guarded, so the
change may also start from an accepted or declined state (accepted and
declined are not terminal: the code allows flipping between them). -/
theorem status_change_only_by_target (st : DB) (op : Op) (i : Nat) (m m' : Meeting)
    (hnd : (st.meetings.map Meeting.id).Nodup)
    (hm : st.meetings[i]? = some m)
    (hm' : (applyOp st op).meetings[i]? = some m')
    (hne : m'.status ≠ m.status) :
    (m'.status = "accepted" ∨ m'.status = "declined") ∧
    ∃ n r, op = .setStatusOp m.requestedTo m.id m'.status n r := by
  have hmmem : m ∈ st.meetings := by
    rcases List.getElem?_eq_some.1 hm with ⟨hlt, he⟩
    exact he ▸ List.getElem_mem hlt
  cases op with
  | createOp c b lr n rr ni ca =>
    exfalso
    simp only [applyOp] at hm'
    cases hfind : st.users.find? (fun v => v.email == b.email) with
    | none =>
      rw [createMeeting_notFound st c b lr n rr ni ca hfind] at hm'
      rw [hm] at hm'
      injection hm' with h2
      exact hne (h2 ▸ rfl)
    | some u =>
      rw [createMeeting_found st c b lr n rr ni ca u hfind] at hm'
      have hlt : i < st.meetings.length := (List.getElem?_eq_some.1 hm).1
      rw [show ({ st with meetings := st.meetings
            ++ [createdMeeting c b lr n rr ni ca u.id] } : DB).meetings
          = st.meetings ++ [createdMeeting c b lr n rr ni ca u.id] from rfl,
        List.getElem?_append_left hlt, hm] at hm'
      injection hm' with h2
      exact hne (h2 ▸ rfl)
  | setStatusOp c mid s n r =>
    simp only [applyOp] at hm'
    by_cases hv : (s == "accepted" || s == "declined") = true
    · cases hfind : findByIdAndRequestedTo st.meetings mid c with
      | none =>
        exfalso
        rw [setStatus_notFound st c mid s n r hfind, hm] at hm'
        injection hm' with h2
        exact hne (h2 ▸ rfl)
      | some meeting =>
        rw [setStatus_found st c mid s n r meeting hv hfind] at hm'
        have hmap : (saveMeeting st.meetings (statusUpdated meeting s n r))[i]?
            = st.meetings[i]?.map (fun x =>
                if x.id == (statusUpdated meeting s n r).id
                then statusUpdated meeting s n r else x) := by
          rw [saveMeeting, List.getElem?_map]
        rw [hmap, hm] at hm'
        simp only [Option.map_some'] at hm'
        injection hm' with h2
        by_cases hid : (m.id == (statusUpdated meeting s n r).id) = true
        · rw [if_pos hid] at h2
          have hmeetmem : meeting ∈ st.meetings := List.mem_of_find?_eq_some hfind
          have hpred := List.find?_some hfind
          simp only [Bool.and_eq_true, beq_iff_eq] at hpred hid
          rw [statusUpdated_id] at hid
          have hmeq : m = meeting := List.inj_on_of_nodup_map hnd hmmem hmeetmem hid
          subst hmeq
          have hstat : m'.status = s := by rw [← h2, statusUpdated_status]
          constructor
          · rcases Bool.or_eq_true_iff.1 hv with ha | hd
            · exact Or.inl (hstat.trans (by simpa using ha))
            · exact Or.inr (hstat.trans (by simpa using hd))
          · exact ⟨n, r, by rw [hpred.2, ← hpred.1, hstat]⟩
        · exfalso
          rw [if_neg hid] at h2
          exact hne (h2 ▸ rfl)
    · exfalso
      rw [setStatus_invalid_state st c mid s n r (by simpa using hv)] at hm'
      rw [hm] at hm'
      injection hm' with h2
      exact hne (h2 ▸ rfl)
  | updateLinkOp c mid nl =>
    exfalso
    simp only [applyOp] at hm'
    cases hfind : findByIdAndParticipant st.meetings mid c with
    | none =>
      rw [updateMeetingLink_notFound st c mid nl hfind, hm] at hm'
      injection hm' with h2
      exact hne (h2 ▸ rfl)
    | some meeting =>
      rw [updateMeetingLink_found st c mid nl meeting hfind] at hm'
      have hmap : (saveMeeting st.meetings (linkUpdated meeting nl))[i]?
          = st.meetings[i]?.map (fun x =>
              if x.id == (linkUpdated meeting nl).id then linkUpdated meeting nl else x) := by
        rw [saveMeeting, List.getElem?_map]
      rw [hmap, hm] at hm'
      simp only [Option.map_some'] at hm'
      injection hm' with h2
      by_cases hid : (m.id == (linkUpdated meeting nl).id) = true
      · rw [if_pos hid] at h2
        have hmeetmem : meeting ∈ st.meetings := List.mem_of_find?_eq_some hfind
        simp only [beq_iff_eq, linkUpdated_id] at hid
        have hmeq : m = meeting := List.inj_on_of_nodup_map hnd hmmem hmeetmem hid
        subst hmeq
        exact hne (by rw [← h2, linkUpdated_status])
      · rw [if_neg hid] at h2
        exact hne (h2 ▸ rfl)
  | refreshOp c mid n r =>
    exfalso
    simp only [applyOp] at hm'
    cases hfind : findAcceptedByIdAndParticipant st.meetings mid c with
    | none =>
      rw [refreshVirtualPitch_notFound st c mid n r hfind, hm] at hm'
      injection hm' with h2
      exact hne (h2 ▸ rfl)
    | some meeting =>
      rw [refreshVirtualPitch_found st c mid n r meeting hfind] at hm'
      have hmap : (saveMeeting st.meetings (refreshedMeeting meeting n r))[i]?
          = st.meetings[i]?.map (fun x =>
              if x.id == (refreshedMeeting meeting n r).id
              then refreshedMeeting meeting n r else x) := by
        rw [saveMeeting, List.getElem?_map]
      rw [hmap, hm] at hm'
      simp only [Option.map_some'] at hm'
      injection hm' with h2
      by_cases hid : (m.id == (refreshedMeeting meeting n r).id) = true
      · rw [if_pos hid] at h2
        have hmeetmem : meeting ∈ st.meetings := List.mem_of_find?_eq_some hfind
        simp only [beq_iff_eq] at hid
        have hideq : m.id = meeting.id := hid
        have hmeq : m = meeting := List.inj_on_of_nodup_map hnd hmmem hmeetmem hideq
        subst hmeq
        exact hne (by rw [← h2]; rfl)
      · rw [if_neg hid] at h2
        exact hne (h2 ▸ rfl)
  | listOp c =>
    exfalso
    simp only [applyOp, listForCaller] at hm'
    rw [hm] at hm'
    injection hm' with h2
    exact hne (h2 ▸ rfl)

/-- Witness for C3's amended theorem: the concrete flip of the accepted
meeting to declined is indeed a `setStatus`-caused change to a value in
{accepted, declined}. -/
theorem status_change_only_by_target_witness :
    (statusUpdated acceptedW "declined" 0 "zz").status = "accepted" ∨
    (statusUpdated acceptedW "declined" 0 "zz").status = "declined" :=
  (status_change_only_by_target ⟨[], [acceptedW]⟩ (.setStatusOp 20 1 "declined" 0 "zz") 0
    acceptedW (statusUpdated acceptedW "declined" 0 "zz")
    (by decide) rfl
    (by
      have h := setStatus_found ⟨[], [acceptedW]⟩ 20 1 "declined" 0 "zz" acceptedW rfl rfl
      show ((setStatus ⟨[], [acceptedW]⟩ 20 1 "declined" 0 "zz").2).meetings[0]?
        = some (statusUpdated acceptedW "declined" 0 "zz")
      rw [h]
      simp only [saveMeeting, List.map_cons, List.map_nil]
      rw [if_pos (by rw [statusUpdated_id]; rfl)]
      rfl)
    (by decide)).1

/-! ### C5: refresh succeeds exactly on accepted meetings of a participant -/

/-- An accepted meeting whose stored room id is exactly the token the
generator is about to produce again (same millisecond, same random suffix). -/
def collidingW : Meeting :=
  { acceptedW with virtualPitchRoomId := some (genVirtualPitchRoomId 7 "zz") }

/-- C5 counterexample: refreshing the virtual pitch room of `collidingW`
succeeds, yet the returned (and stored) room id equals the value held
immediately before the call — the handler only regenerates the
timestamp+random token and nothing in it guarantees a different value. -/
theorem refreshVirtualPitch_collision_counterexample :
    (refreshVirtualPitch ⟨[], [collidingW]⟩ 20 1 7 "zz").1
      = .ok { meetingId := 1, title := "t"
              virtualPitchRoomId := some (genVirtualPitchRoomId 7 "zz")
              virtualPitchUrl := virtualPitchUrlOf (some (genVirtualPitchRoomId 7 "zz")) } ∧
    collidingW.virtualPitchRoomId = some (genVirtualPitchRoomId 7 "zz") := by
  have h := refreshVirtualPitch_found ⟨[], [collidingW]⟩ 20 1 7 "zz" collidingW rfl
  exact ⟨by rw [h]; rfl, rfl⟩

/-- C5 (amended): `refreshVirtualPitch` succeeds exactly when some stored
meeting has the given id, status accepted and the caller among its two
participants; in every other case it answers the fixed 404 response with
the state unchanged; on success the returned room id and the room id of the
saved document are the freshly generated token — a value that differs from
the one held before exactly when the generated token differs from it (the
generator makes that overwhelmingly likely but not certain). -/
theorem refreshVirtualPitch_spec (st : DB) (callerId meetingId now : Nat) (rand : String) :
    ((∃ info st', refreshVirtualPitch st callerId meetingId now rand = (.ok info, st')) ↔
      ∃ m ∈ st.meetings, m.id = meetingId ∧ m.status = "accepted" ∧
        (m.requestedBy = callerId ∨ m.requestedTo = callerId)) ∧
    ((¬ ∃ m ∈ st.meetings, m.id = meetingId ∧ m.status = "accepted" ∧
        (m.requestedBy = callerId ∨ m.requestedTo = callerId)) →
      refreshVirtualPitch st callerId meetingId now rand = (.notFoundOrUnauthorized, st)) ∧
    (∀ meeting, findAcceptedByIdAndParticipant st.meetings meetingId callerId = some meeting →
      refreshVirtualPitch st callerId meetingId now rand =
        (.ok { meetingId := meeting.id, title := meeting.title
               virtualPitchRoomId := some (genVirtualPitchRoomId now rand)
               virtualPitchUrl := virtualPitchUrlOf (some (genVirtualPitchRoomId now rand)) },
         { st with meetings := saveMeeting st.meetings (refreshedMeeting meeting now rand) }) ∧
      (refreshedMeeting meeting now rand).virtualPitchRoomId
        = some (genVirtualPitchRoomId now rand)) := by
  have hiff : (findAcceptedByIdAndParticipant st.meetings meetingId callerId).isSome = true ↔
      ∃ m ∈ st.meetings, m.id = meetingId ∧ m.status = "accepted" ∧
        (m.requestedBy = callerId ∨ m.requestedTo = callerId) := by
    rw [findAcceptedByIdAndParticipant, List.find?_isSome]
    constructor
    · rintro ⟨m, hm, hp⟩
      simp only [Bool.and_eq_true, Bool.or_eq_true_iff, beq_iff_eq] at hp
      exact ⟨m, hm, hp.1.1, hp.1.2, hp.2⟩
    · rintro ⟨m, hm, h1, h2, h3⟩
      refine ⟨m, hm, ?_⟩
      rcases h3 with h3 | h3 <;> simp [h1, h2, h3]
  refine ⟨⟨?_, ?_⟩, ?_, ?_⟩
  · rintro ⟨info, st', heq⟩
    apply hiff.1
    cases hfind : findAcceptedByIdAndParticipant st.meetings meetingId callerId with
    | none =>
      rw [refreshVirtualPitch_notFound st callerId meetingId now rand hfind] at heq
      exact absurd (congrArg Prod.fst heq) (by simp)
    | some meeting => rfl
  · intro hex
    have hsome := hiff.2 hex
    cases hfind : findAcceptedByIdAndParticipant st.meetings meetingId callerId with
    | none => rw [hfind] at hsome; simp at hsome
    | some meeting =>
      exact ⟨_, _, refreshVirtualPitch_found st callerId meetingId now rand meeting hfind⟩
  · intro hnex
    cases hfind : findAcceptedByIdAndParticipant st.meetings meetingId callerId with
    | none => exact refreshVirtualPitch_notFound st callerId meetingId now rand hfind
    | some meeting =>
      exact absurd (hiff.1 (by rw [hfind]; rfl)) hnex
  · intro meeting hfind
    exact ⟨refreshVirtualPitch_found st callerId meetingId now rand meeting hfind, rfl⟩

/-- Witness for C5's amended theorem: on the store holding the accepted
meeting (room id "p"), a refresh by the requester (user 10) succeeds and
installs the generated token. -/
theorem refreshVirtualPitch_spec_witness :
    refreshVirtualPitch ⟨[], [acceptedW]⟩ 10 1 7 "zz" =
      (.ok { meetingId := acceptedW.id, title := acceptedW.title
             virtualPitchRoomId := some (genVirtualPitchRoomId 7 "zz")
             virtualPitchUrl := virtualPitchUrlOf (some (genVirtualPitchRoomId 7 "zz")) },
       { (⟨[], [acceptedW]⟩ : DB) with
          meetings := saveMeeting [acceptedW] (refreshedMeeting acceptedW 7 "zz") }) ∧
    (refreshedMeeting acceptedW 7 "zz").virtualPitchRoomId
      = some (genVirtualPitchRoomId 7 "zz") :=
  (refreshVirtualPitch_spec ⟨[], [acceptedW]⟩ 10 1 7 "zz").2.2 acceptedW rfl

/-! ### C10: each call writes at most its one target document -/

/-- C10: every operation leaves the user collection untouched and writes at
most the single meeting document named by its target id (the addressed
`meetingId`, or the id of the newly created document): every other stored
meeting remains stored unchanged, and everything stored afterwards is either
an old document or carries the target id. -/
theorem applyOp_frame (st : DB) (op : Op) :
    (applyOp st op).users = st.users ∧
    (∀ m ∈ st.meetings, m.id ≠ op.targetId → m ∈ (applyOp st op).meetings) ∧
    (∀ m' ∈ (applyOp st op).meetings, m' ∈ st.meetings ∨ m'.id = op.targetId) := by
  cases op with
  | createOp c b lr n rr ni ca =>
    simp only [applyOp, Op.targetId]
    cases hfind : st.users.find? (fun v => v.email == b.email) with
    | none =>
      rw [createMeeting_notFound st c b lr n rr ni ca hfind]
      exact ⟨rfl, fun m hm _ => hm, fun m' hm' => Or.inl hm'⟩
    | some u =>
      rw [createMeeting_found st c b lr n rr ni ca u hfind]
      refine ⟨rfl, fun m hm _ => by simp [hm], fun m' hm' => ?_⟩
      rcases List.mem_append.1 hm' with h | h
      · exact Or.inl h
      · right
        rw [List.mem_singleton.1 h]
        rfl
  | setStatusOp c mid s n r =>
    simp only [applyOp, Op.targetId]
    by_cases hv : (s == "accepted" || s == "declined") = true
    · cases hfind : findByIdAndRequestedTo st.meetings mid c with
      | none =>
        rw [setStatus_notFound st c mid s n r hfind]
        exact ⟨rfl, fun m hm _ => hm, fun m' hm' => Or.inl hm'⟩
      | some meeting =>
        have hid : (statusUpdated meeting s n r).id = mid := by
          have hpred := List.find?_some hfind
          simp only [Bool.and_eq_true, beq_iff_eq] at hpred
          rw [statusUpdated_id, hpred.1]
        rw [setStatus_found st c mid s n r meeting hv hfind]
        refine ⟨rfl, ?_, ?_⟩
        · intro m hm hne
          exact mem_saveMeeting_of_ne _ _ _ hm (by rw [hid]; exact hne)
        · intro m' hm'
          rcases mem_saveMeeting _ _ _ hm' with h | h
          · exact Or.inl h
          · right
            rw [h, hid]
    · rw [setStatus_invalid_state st c mid s n r (by simpa using hv)]
      exact ⟨rfl, fun m hm _ => hm, fun m' hm' => Or.inl hm'⟩
  | updateLinkOp c mid nl =>
    simp only [applyOp, Op.targetId]
    cases hfind : findByIdAndParticipant st.meetings mid c with
    | none =>
      rw [updateMeetingLink_notFound st c mid nl hfind]
      exact ⟨rfl, fun m hm _ => hm, fun m' hm' => Or.inl hm'⟩
    | some meeting =>
      have hid : (linkUpdated meeting nl).id = mid := by
        have hpred := List.find?_some hfind
        simp only [Bool.and_eq_true, beq_iff_eq] at hpred
        rw [linkUpdated_id, hpred.1]
      rw [updateMeetingLink_found st c mid nl meeting hfind]
      refine ⟨rfl, ?_, ?_⟩
      · intro m hm hne
        exact mem_saveMeeting_of_ne _ _ _ hm (by rw [hid]; exact hne)
      · intro m' hm'
        rcases mem_saveMeeting _ _ _ hm' with h | h
        · exact Or.inl h
        · right
          rw [h, hid]
  | refreshOp c mid n r =>
    simp only [applyOp, Op.targetId]
    cases hfind : findAcceptedByIdAndParticipant st.meetings mid c with
    | none =>
      rw [refreshVirtualPitch_notFound st c mid n r hfind]
      exact ⟨rfl, fun m hm _ => hm, fun m' hm' => Or.inl hm'⟩
    | some meeting =>
      have hid : (refreshedMeeting meeting n r).id = mid := by
        have hpred := List.find?_some hfind
        simp only [Bool.and_eq_true, beq_iff_eq] at hpred
        exact hpred.1.1
      rw [refreshVirtualPitch_found st c mid n r meeting hfind]
      refine ⟨rfl, ?_, ?_⟩
      · intro m hm hne
        exact mem_saveMeeting_of_ne _ _ _ hm (by rw [hid]; exact hne)
      · intro m' hm'
        rcases mem_saveMeeting _ _ _ hm' with h | h
        · exact Or.inl h
        · right
          rw [h, hid]
  | listOp c =>
    exact ⟨rfl, fun m hm _ => hm, fun m' hm' => Or.inl hm'⟩

/-- A second meeting, unrelated to document id 1. -/
def m2W : Meeting := { meetingW with id := 2 }

/-- Witness for C10: declining meeting 1 leaves the other stored meeting
(document id 2) stored unchanged. -/
theorem applyOp_frame_witness :
    m2W ∈ (applyOp ⟨[], [acceptedW, m2W]⟩ (Op.setStatusOp 20 1 "declined" 3 "qq")).meetings :=
  (applyOp_frame ⟨[], [acceptedW, m2W]⟩ (Op.setStatusOp 20 1 "declined" 3 "qq")).2.1 m2W
    (by decide) (by decide)

/-- Witness for C9: listing leaves a concrete two-meeting store unchanged,
and meeting 2 (whose requester is user 10) appears in user 10's listing. -/
theorem listForCaller_exact_sorted_readonly_witness :
    (listForCaller ⟨[], [acceptedW, m2W]⟩ 10).2 = ⟨[], [acceptedW, m2W]⟩ ∧
    m2W ∈ (listForCaller ⟨[], [acceptedW, m2W]⟩ 10).1 :=
  ⟨(listForCaller_exact_sorted_readonly ⟨[], [acceptedW, m2W]⟩ 10).1,
   ((listForCaller_exact_sorted_readonly ⟨[], [acceptedW, m2W]⟩ 10).2.2.2 m2W).2
     (by decide)⟩

end Arthankur
